import Mathlib

/-!
Verification development for two MAME device cores:
the Apple M0110A keyboard matrix controller (pluskbd.cpp) and the
Y8950 FM+ADPCM sound chip front end (y8950.cpp).
Each definition is a shallow embedding of the corresponding source
function; machine integers are modelled as Nat with explicit masking
where the source relies on fixed-width behaviour.
-/

namespace PlusKbd

/-- State of the m0110a keyboard controller, from pluskbd.cpp.
The matrix row snapshots (required_ioport_array of 10 rows, each an
8-bit active-low value supplied by an external collaborator) are kept
as a read-only function field. -/
structure KbdState where
  row_drive : Nat
  host_clock_out : Bool
  host_data_out : Bool
  host_data_in : Bool
  rows : Nat → Nat

/-- Output-line notifications pushed to the host (write_clock and
write_data in the source), recorded in emission order. -/
inductive KEff where
  | clockOut (b : Bool)
  | dataOut (b : Bool)
deriving DecidableEq, Repr

/-- Reset state from device_start: row drive all ones (no rows
selected, active low), both host lines idle high. -/
def initKbd (rows : Nat → Nat) : KbdState :=
  { row_drive := 0x03ff
    host_clock_out := true
    host_data_out := true
    host_data_in := true
    rows := rows }

/-- Embedding of m0110a_device p1_w: replace bits 0 to 7 of the row
drive mask with the data byte, keeping bits 8 and 9. -/
def p1_w (s : KbdState) (data : Nat) : KbdState :=
  { s with row_drive := (s.row_drive &&& 0x0300) ||| data }

/-- Embedding of m0110a_device p2_w: replace bits 8 and 9 of the row
drive mask with bits 0 and 1 of the data byte; then, if bit 6 differs
from the current host clock drive, update it and emit a clock edge;
then the same for bit 7 and the host data drive. -/
def p2_w (s : KbdState) (data : Nat) : KbdState × List KEff :=
  let s0 := { s with row_drive := (s.row_drive &&& 0x00ff) ||| ((data &&& 0x03) <<< 8) }
  let r1 :=
    if data.testBit 6 ≠ s0.host_clock_out then
      ({ s0 with host_clock_out := data.testBit 6 }, [KEff.clockOut (data.testBit 6)])
    else (s0, ([] : List KEff))
  let r2 :=
    if data.testBit 7 ≠ r1.1.host_data_out then
      ({ r1.1 with host_data_out := data.testBit 7 }, [KEff.dataOut (data.testBit 7)])
    else (r1.1, ([] : List KEff))
  (r2.1, r1.2 ++ r2.2)

/-- Embedding of m0110a_device bus_r: start from 0xff and AND in every
row whose bit in the row drive mask is clear (active low selected). -/
def bus_r (s : KbdState) : Nat :=
  (List.range 10).foldl
    (fun result i => if s.row_drive.testBit i then result else result &&& s.rows i)
    0xff

/-- Embedding of host_data_r: the synchronized host data bit, inverted. -/
def host_data_r (s : KbdState) : Nat :=
  (if s.host_data_in then 1 else 0) ^^^ 1

/-- Embedding of the timer callback update_host_data: store the queued
host data level if it differs from the current one. -/
def update_host_data (s : KbdState) (param : Bool) : KbdState :=
  if param ≠ s.host_data_in then { s with host_data_in := param } else s

/-- Keyboard state together with the pending deferred host-data events. -/
structure SchedKbd where
  kbd : KbdState
  queue : List Bool

/-- Modelled from the spec: the source routes data_w through
machine scheduler synchronize, which is not part of this repository
snapshot; per the spec it queues a deferred event that takes effect at
the current simulated instant and is processed in strict FIFO
submission order at the next synchronization point. -/
def data_w (s : SchedKbd) (state : Bool) : SchedKbd :=
  { s with queue := s.queue ++ [state] }

/-- Modelled from the spec: the synchronization point applies every
queued event, oldest first, through update_host_data. -/
def runSync (s : SchedKbd) : SchedKbd :=
  { kbd := s.queue.foldl update_host_data s.kbd, queue := [] }

/-- List of keyboard states visited while the queued events are applied
in order, starting from the given state. -/
def applyTrace (k : KbdState) : List Bool → List KbdState
  | [] => [k]
  | v :: vs => k :: applyTrace (update_host_data k v) vs

theorem update_host_data_in (k : KbdState) (v : Bool) :
    (update_host_data k v).host_data_in = v := by
  unfold update_host_data
  split <;> simp_all

theorem host_data_r_update (k : KbdState) (v : Bool) :
    host_data_r (update_host_data k v) = (if v then 0 else 1) := by
  unfold host_data_r
  rw [update_host_data_in]
  cases v <;> rfl

theorem foldl_and_filter (rows : Nat → Nat) (p : Nat → Bool) :
    ∀ (l : List Nat) (a : Nat),
      l.foldl (fun r i => if p i then r else r &&& rows i) a
        = (l.filter (fun i => !(p i))).foldl (fun r i => r &&& rows i) a := by
  intro l
  induction l with
  | nil => intro a; rfl
  | cons x xs ih =>
    intro a
    cases hx : p x <;>
      simp only [List.foldl_cons, List.filter_cons, hx, Bool.not_false, Bool.not_true,
        if_true, if_false, List.foldl_cons] <;>
      exact ih _

theorem and255_eq (r : Nat) (h : r < 256) : 0xff &&& r = r := by
  rw [Nat.and_comm]
  have h8 : (0xff : Nat) = 2 ^ 8 - 1 := by norm_num
  rw [h8, Nat.and_pow_two_sub_one_eq_mod]
  exact Nat.mod_eq_of_lt h

theorem filter_range10_one (i : Nat) (hi : i < 10) :
    (List.range 10).filter (fun j => decide (j = i)) = [i] := by
  interval_cases i <;> decide

theorem filter_range10_two (i j : Nat) (hij : i < j) (hj : j < 10) :
    (List.range 10).filter (fun k => decide (k = i ∨ k = j)) = [i, j] := by
  have hi : i < 10 := lt_trans hij hj
  interval_cases i <;> interval_cases j <;> decide

/-- Claim C5: bus_r returns the AND of exactly the matrix rows whose
bit in the row drive mask is clear; it returns 0xff when no row is
selected, the single selected row when exactly one bit is clear, and
the AND of the two selected rows when exactly two bits are clear.  It
is a pure function of the state (it is a Lean function). -/
theorem bus_r_spec (s : KbdState) (hrows : ∀ i, i < 10 → s.rows i < 256) :
    bus_r s
        = ((List.range 10).filter (fun i => !(s.row_drive.testBit i))).foldl
            (fun r i => r &&& s.rows i) 0xff
      ∧ ((∀ i, i < 10 → s.row_drive.testBit i) → bus_r s = 0xff)
      ∧ (∀ i, i < 10 → (∀ j, j < 10 → (s.row_drive.testBit j = false ↔ j = i)) →
          bus_r s = s.rows i)
      ∧ (∀ i j, i < j → j < 10 →
          (∀ k, k < 10 → (s.row_drive.testBit k = false ↔ (k = i ∨ k = j))) →
          bus_r s = s.rows i &&& s.rows j) := by
  have hmain : bus_r s
      = ((List.range 10).filter (fun i => !(s.row_drive.testBit i))).foldl
          (fun r i => r &&& s.rows i) 0xff :=
    foldl_and_filter s.rows (fun i => s.row_drive.testBit i) (List.range 10) 0xff
  refine ⟨hmain, ?_, ?_, ?_⟩
  · intro hall
    have hnil : (List.range 10).filter (fun i => !(s.row_drive.testBit i)) = [] := by
      refine List.filter_eq_nil_iff.mpr ?_
      intro a ha
      simp only [List.mem_range] at ha
      simp [hall a ha]
    rw [hmain, hnil]
    rfl
  · intro i hi hsel
    have hp : ∀ x ∈ List.range 10,
        (!(s.row_drive.testBit x)) = (fun j => decide (j = i)) x := by
      intro x hx
      simp only [List.mem_range] at hx
      have := hsel x hx
      cases hb : s.row_drive.testBit x <;> simp_all
    rw [hmain, List.filter_congr hp, filter_range10_one i hi]
    exact and255_eq (s.rows i) (hrows i hi)
  · intro i j hij hj hsel
    have hi : i < 10 := lt_trans hij hj
    have hp : ∀ x ∈ List.range 10,
        (!(s.row_drive.testBit x)) = (fun k => decide (k = i ∨ k = j)) x := by
      intro x hx
      simp only [List.mem_range] at hx
      have := hsel x hx
      cases hb : s.row_drive.testBit x <;> simp_all
    rw [hmain, List.filter_congr hp, filter_range10_two i j hij hj]
    simp only [List.foldl_cons, List.foldl_nil]
    rw [and255_eq (s.rows i) (hrows i hi)]

/-- Concrete keyboard state used by witnesses: only row 3 selected,
row snapshots 0xf0 + index. -/
def kwS : KbdState :=
  { row_drive := 0x03f7
    host_clock_out := true
    host_data_out := true
    host_data_in := true
    rows := fun i => 0xf0 + i }

theorem bus_r_spec_witness : bus_r kwS = 0xf3 :=
  (bus_r_spec kwS (by decide)).2.2.1 3 (by decide) (by decide)

/-- Claim C6: p2_w emits a clock notification iff bit 6 of the
argument differs from the current host clock drive, a data
notification iff bit 7 differs from the current host data drive, emits
the clock edge before the data edge when both change, and emits
nothing when neither changes. -/
theorem p2_w_edges (s : KbdState) (d : Nat) :
    ((∃ b, KEff.clockOut b ∈ (p2_w s d).2) ↔ d.testBit 6 ≠ s.host_clock_out)
      ∧ ((∃ b, KEff.dataOut b ∈ (p2_w s d).2) ↔ d.testBit 7 ≠ s.host_data_out)
      ∧ (d.testBit 6 ≠ s.host_clock_out → d.testBit 7 ≠ s.host_data_out →
          (p2_w s d).2 = [KEff.clockOut (d.testBit 6), KEff.dataOut (d.testBit 7)])
      ∧ (d.testBit 6 = s.host_clock_out → d.testBit 7 = s.host_data_out →
          (p2_w s d).2 = []) := by
  by_cases h6 : d.testBit 6 = s.host_clock_out <;>
    by_cases h7 : d.testBit 7 = s.host_data_out <;>
      simp [p2_w, h6, h7]

/-- Concrete initial keyboard state with idle rows, for witnesses. -/
def kw0 : KbdState := initKbd (fun _ => 0xff)

theorem p2_w_edges_witness :
    (p2_w kw0 0x00).2 = [KEff.clockOut false, KEff.dataOut false] :=
  (p2_w_edges kw0 0x00).2.2.1 (by decide) (by decide)

/-- Claim C7: two deferred host data events submitted before the next
synchronization point are queued in submission order; applying the
queue visits the first value strictly before the second, and the host
data line read reflects them in that order. -/
theorem data_w_fifo (s : SchedKbd) (v1 v2 : Bool) (h : s.queue = []) :
    (data_w (data_w s v1) v2).queue = [v1, v2]
      ∧ (applyTrace s.kbd (data_w (data_w s v1) v2).queue).map host_data_r
          = [host_data_r s.kbd, if v1 then 0 else 1, if v2 then 0 else 1]
      ∧ (applyTrace s.kbd (data_w (data_w s v1) v2).queue).map KbdState.host_data_in
          = [s.kbd.host_data_in, v1, v2]
      ∧ (runSync (data_w (data_w s v1) v2)).kbd.host_data_in = v2 := by
  refine ⟨by simp [data_w, h], ?_, ?_, ?_⟩ <;>
    simp [data_w, h, applyTrace, runSync, host_data_r_update, update_host_data_in]

/-- Concrete scheduler state for the C7 witness. -/
def sq0 : SchedKbd := { kbd := kw0, queue := [] }

theorem data_w_fifo_witness :
    (applyTrace sq0.kbd (data_w (data_w sq0 false) true).queue).map KbdState.host_data_in
      = [sq0.kbd.host_data_in, false, true] :=
  (data_w_fifo sq0 false true rfl).2.2.1

/-- Claim C10: p1_w touches only bits 0 to 7 of the row drive mask and
leaves the host line state alone, while p2_w leaves bits 0 to 7 of the
row drive mask unchanged. -/
theorem p1_p2_frame (s : KbdState) (d e : Nat)
    (h10 : s.row_drive < 1024) (hd : d < 256) :
    (∀ k, 8 ≤ k → (p1_w s d).row_drive.testBit k = s.row_drive.testBit k)
      ∧ (p1_w s d).host_clock_out = s.host_clock_out
      ∧ (p1_w s d).host_data_out = s.host_data_out
      ∧ (p1_w s d).host_data_in = s.host_data_in
      ∧ (p1_w s d).rows = s.rows
      ∧ (∀ k, k < 8 → (p2_w s e).1.row_drive.testBit k = s.row_drive.testBit k) := by
  refine ⟨?_, rfl, rfl, rfl, rfl, ?_⟩
  · intro k hk
    have hdlt : d < 2 ^ k :=
      calc d < 256 := hd
        _ = 2 ^ 8 := by norm_num
        _ ≤ 2 ^ k := Nat.pow_le_pow_right (by norm_num) hk
    have hdk : d.testBit k = false := Nat.testBit_lt_two_pow hdlt
    simp only [p1_w, Nat.testBit_or, Nat.testBit_and, hdk, Bool.or_false]
    rcases Nat.lt_or_ge k 10 with hk10 | hk10
    · interval_cases k <;>
        simp [show Nat.testBit 768 8 = true by decide, show Nat.testBit 768 9 = true by decide]
    · have hpow : (1024 : Nat) ≤ 2 ^ k :=
        calc (1024 : Nat) = 2 ^ 10 := by norm_num
          _ ≤ 2 ^ k := Nat.pow_le_pow_right (by norm_num) hk10
      have h768 : (0x0300 : Nat).testBit k = false :=
        Nat.testBit_lt_two_pow (lt_of_lt_of_le (by norm_num) hpow)
      have hrd : s.row_drive.testBit k = false :=
        Nat.testBit_lt_two_pow (lt_of_lt_of_le h10 hpow)
      simp [h768, hrd]
  · intro k hk
    have hsh : ((e &&& 0x03) <<< 8).testBit k = false := by
      rw [Nat.testBit_shiftLeft]
      simp [Nat.not_le.mpr hk]
    have h255 : (0x00ff : Nat).testBit k = true := by
      have h8 : (0x00ff : Nat) = 2 ^ 8 - 1 := by norm_num
      rw [h8, Nat.testBit_two_pow_sub_one]
      simp [hk]
    have hstate : (p2_w s e).1.row_drive
        = (s.row_drive &&& 0x00ff) ||| ((e &&& 0x03) <<< 8) := by
      by_cases h6 : e.testBit 6 = s.host_clock_out <;>
        by_cases h7 : e.testBit 7 = s.host_data_out <;>
          simp [p2_w, h6, h7]
    rw [hstate]
    simp [Nat.testBit_or, Nat.testBit_and, hsh, h255]

theorem p1_p2_frame_witness :
    (p1_w kw0 0x55).row_drive.testBit 9 = kw0.row_drive.testBit 9
      ∧ (p1_w kw0 0x55).host_data_out = kw0.host_data_out :=
  ⟨(p1_p2_frame kw0 0x55 0x00 (by decide) (by decide)).1 9 (by decide),
   (p1_p2_frame kw0 0x55 0x00 (by decide) (by decide)).2.2.1⟩

end PlusKbd

namespace Y8950

/-- Modelled from the spec: the chip-level ADPCM end-of-sample status
bit; the constant lives in y8950.h, which is not part of this
repository snapshot. -/
def STATUS_ADPCM_B_EOS : Nat := 0x10

/-- Modelled from the spec: the chip-level ADPCM buffer-ready status
bit, declared in the absent y8950.h. -/
def STATUS_ADPCM_B_BRDY : Nat := 0x08

/-- Modelled from the spec: the chip-level ADPCM playing status bit,
declared in the absent y8950.h. -/
def STATUS_ADPCM_B_PLAYING : Nat := 0x01

/-- Modelled from the spec: ALL_IRQS is the union of the four
maskable IRQ status bits (Timer A 0x40, Timer B 0x20, ADPCM EOS,
ADPCM BRDY); declared in the absent y8950.h. -/
def ALL_IRQS : Nat := 0x40 ||| 0x20 ||| STATUS_ADPCM_B_EOS ||| STATUS_ADPCM_B_BRDY

/-- Modelled from the spec: raw status bits of the ADPCM channel
(ymadpcm_b_channel constants, declared outside this snapshot). -/
def ADPCM_STATUS_EOS : Nat := 0x01

/-- Modelled from the spec: ADPCM channel buffer-ready raw status bit. -/
def ADPCM_STATUS_BRDY : Nat := 0x02

/-- Modelled from the spec: ADPCM channel playing raw status bit. -/
def ADPCM_STATUS_PLAYING : Nat := 0x04

/-- Abstract state of an FM engine collaborator: a register file, the
engine IRQ mask and the engine status/flag register.  The engine
internals live outside this snapshot; only the operations the chip
front end invokes are modelled. -/
structure EngineState where
  regs : Nat → Nat
  irqMask : Nat
  status : Nat

/-- Abstract state of the ADPCM-B engine collaborator: a register
file for writes, a read map for register reads, and its raw status. -/
structure AdpcmState where
  regs : Nat → Nat
  readReg : Nat → Nat
  status : Nat

/-- Modelled from the spec: the engine register-write contract stores
the byte at the addressed engine register. -/
def engineWrite (en : EngineState) (r v : Nat) : EngineState :=
  { en with regs := fun i => if i = r then v else en.regs i }

/-- Modelled from the spec: set_irq_mask stores the mask in the
engine. -/
def set_irq_mask (en : EngineState) (m : Nat) : EngineState :=
  { en with irqMask := m }

/-- Modelled from the spec: set_reset_status sets the given flag bits
and clears the reset bits in the engine status/flag register (both
arguments are bytes). -/
def set_reset_status (en : EngineState) (sbits rbits : Nat) : EngineState :=
  { en with status := (en.status ||| sbits) &&& (255 ^^^ (rbits &&& 255)) }

/-- Modelled from the spec: the ADPCM register-write contract stores
the byte at the addressed ADPCM register. -/
def adpcm_write (a : AdpcmState) (r v : Nat) : AdpcmState :=
  { a with regs := fun i => if i = r then v else a.regs i }

/-- State of the y8950 device front end, from y8950.cpp: the address
latch, the I/O direction latch, the IRQ enable mask, and the engine
collaborators.  The source body of combine_status names an engine
member m_opn while every other member function uses m_opl; both are
therefore carried as separate engine slots so the file can be embedded
as written. -/
structure Y8950State where
  address : Nat
  io_ddr : Nat
  irq_mask : Nat
  opl : EngineState
  opn : EngineState
  adpcm : AdpcmState

/-- External collaborator values observed through the keyboard-in and
I/O-in callbacks. -/
structure Env where
  kbdIn : Nat
  ioIn : Nat

/-- Calls made to external collaborators and engines, recorded in the
order the source performs them. -/
inductive Eff where
  | streamUpdate
  | oplWrite (reg v : Nat)
  | adpcmWrite (reg v : Nat)
  | adpcmRead (reg : Nat)
  | kbdRead
  | kbdWrite (v : Nat)
  | ioRead
  | ioWrite (v : Nat)
  | log
deriving DecidableEq, Repr

/-- Embedding of y8950_device combine_status: OR the ADPCM raw status
flags into the status of the engine member the source names m_opn,
mask with the IRQ enable mask, feed the combined value back into that
same m_opn status register, and return it. -/
def combine_status (s : Y8950State) : Nat × Y8950State :=
  let status0 := s.opn.status
  let status1 :=
    if s.adpcm.status &&& ADPCM_STATUS_EOS ≠ 0 then status0 ||| STATUS_ADPCM_B_EOS else status0
  let status2 :=
    if s.adpcm.status &&& ADPCM_STATUS_BRDY ≠ 0 then status1 ||| STATUS_ADPCM_B_BRDY else status1
  let status3 :=
    if s.adpcm.status &&& ADPCM_STATUS_PLAYING ≠ 0 then status2 ||| STATUS_ADPCM_B_PLAYING
    else status2
  let status4 := status3 &&& s.irq_mask
  (status4, { s with opn := set_reset_status s.opn status4 (255 ^^^ (status4 &&& 255)) })

/-- Embedding of y8950_device read.  Even offsets return the combined
status; odd offsets dispatch on the address latch: 0x05 keyboard in,
0x09 and 0x1a the ADPCM engine read with register index offset - 0x07
computed on the 32-bit port offset exactly as the source does (offs_t
is unsigned 32-bit, so the subtraction wraps modulo 2 to the 32), 0x19
I/O in, everything else logs and returns the 0xff sentinel. -/
def y8950_read (env : Env) (s : Y8950State) (offset : Nat) : Nat × Y8950State × List Eff :=
  if offset % 2 = 0 then
    ((combine_status s).1, (combine_status s).2, [])
  else if s.address = 0x05 then
    (env.kbdIn, s, [Eff.kbdRead])
  else if s.address = 0x09 ∨ s.address = 0x1a then
    ((s.adpcm.readReg ((offset + 2 ^ 32 - 0x07) % 2 ^ 32), s,
      [Eff.adpcmRead ((offset + 2 ^ 32 - 0x07) % 2 ^ 32)]))
  else if s.address = 0x19 then
    (env.ioIn, s, [Eff.ioRead])
  else
    (0xff, s, [Eff.log])

/-- Embedding of y8950_device write.  Even offsets latch the address.
Odd offsets first force a stream update, then dispatch on the address
latch exactly as the source switch does: 0x04 IRQ control (invert and
mask the byte into the IRQ enable mask, push it into the FM engine
mask, forward the write to the FM engine, recombine status), 0x06
keyboard out, 0x08 split (low nibble to ADPCM, bits 6 and 7 to FM),
the explicit case list 0x07, 0x0a to 0x12 and 0x15 to 0x17 to the
ADPCM engine at address - 0x07, 0x18 the I/O direction latch, 0x19
I/O out masked by the direction latch, and everything else to the FM
engine. -/
def y8950_write (s : Y8950State) (offset v : Nat) : Y8950State × List Eff :=
  if offset % 2 = 0 then
    ({ s with address := v }, [])
  else if s.address = 0x04 then
    let m := (255 ^^^ (v &&& 255)) &&& ALL_IRQS
    let s1 := { s with irq_mask := m, opl := engineWrite (set_irq_mask s.opl m) 0x04 v }
    ((combine_status s1).2, [Eff.streamUpdate, Eff.oplWrite 0x04 v])
  else if s.address = 0x06 then
    (s, [Eff.streamUpdate, Eff.kbdWrite v])
  else if s.address = 0x08 then
    ({ s with
        adpcm := adpcm_write s.adpcm (0x08 - 0x07) (v &&& 0x0f)
        opl := engineWrite s.opl 0x08 (v &&& 0xc0) },
     [Eff.streamUpdate, Eff.adpcmWrite (0x08 - 0x07) (v &&& 0x0f), Eff.oplWrite 0x08 (v &&& 0xc0)])
  else if s.address ∈ [0x07, 0x0a, 0x0b, 0x0c, 0x0d, 0x0e, 0x0f,
      0x10, 0x11, 0x12, 0x15, 0x16, 0x17] then
    ({ s with adpcm := adpcm_write s.adpcm (s.address - 0x07) v },
     [Eff.streamUpdate, Eff.adpcmWrite (s.address - 0x07) v])
  else if s.address = 0x18 then
    ({ s with io_ddr := v &&& 0x0f }, [Eff.streamUpdate])
  else if s.address = 0x19 then
    (s, [Eff.streamUpdate, Eff.ioWrite (v &&& s.io_ddr)])
  else
    ({ s with opl := engineWrite s.opl s.address v },
     [Eff.streamUpdate, Eff.oplWrite s.address v])

/-- Engine state with empty registers and clear status, for concrete
evaluation. -/
def e0 : EngineState := { regs := fun _ => 0, irqMask := ALL_IRQS, status := 0 }

/-- ADPCM engine state whose read map returns the low byte of the
requested register index, making the requested index observable. -/
def a0 : AdpcmState := { regs := fun _ => 0, readReg := fun i => i % 256, status := 0 }

/-- Baseline concrete device state. -/
def y0 : Y8950State :=
  { address := 0, io_ddr := 0, irq_mask := ALL_IRQS, opl := e0, opn := e0, adpcm := a0 }

/-- Baseline state with the address latch set to 0x09. -/
def y09 : Y8950State := { y0 with address := 0x09 }

/-- Empty collaborator environment. -/
def env0 : Env := { kbdIn := 0, ioIn := 0 }

/-- Concrete state for claim C1: the FM engine slot m_opl holds raw
status 0x40 (Timer A), the m_opn slot and the ADPCM status are clear,
and the IRQ enable mask passes every maskable bit. -/
def c1s : Y8950State :=
  { y0 with opl := { regs := fun _ => 0, irqMask := ALL_IRQS, status := 0x40 } }

/-- Claim C1: on the state c1s the status combination returns 0,
although the OR of the FM engine raw status with the ADPCM flags,
masked by the IRQ enable mask, is 0x40; the combined value is fed
into the m_opn slot, while the FM engine status register m_opl is
left untouched at 0x40.  The source body of combine_status reads and
re-arms m_opn instead of the FM engine m_opl used everywhere else. -/
theorem combine_status_ignores_fm :
    (combine_status c1s).1 = 0
      ∧ (c1s.opl.status ||| 0) &&& c1s.irq_mask = 0x40
      ∧ (combine_status c1s).2.opl.status = 0x40
      ∧ (combine_status c1s).2.opn.status = 0 := by
  refine ⟨by decide, by decide, by decide, by decide⟩

/-- Claim C2: with the address latch at 0x09 the data byte 0x42 is
forwarded to the FM engine by the default branch and the ADPCM engine
is left untouched, although 0x09 is a documented ADPCM register (the
read dispatch of the same source file labels 0x09 ADPCM data). -/
theorem write_0x09_goes_to_fm_not_adpcm :
    (y8950_write y09 1 0x42).1.opl.regs 0x09 = 0x42
      ∧ (y8950_write y09 1 0x42).1.adpcm = y09.adpcm
      ∧ (y8950_write y09 1 0x42).2 = [Eff.streamUpdate, Eff.oplWrite 0x09 0x42] := by
  refine ⟨by decide, rfl, by decide⟩

/-- Claim C4: with the address latch at 0x09, a data-port read at port
offset 1 asks the ADPCM engine for register (1 - 0x07) modulo 2 to the
32, that is 4294967290, instead of the translated latched address
0x09 - 0x07 = 2. -/
theorem read_adpcm_uses_port_offset :
    (y8950_read env0 y09 1).2.2 = [Eff.adpcmRead 4294967290]
      ∧ (0x09 : Nat) - 0x07 = 2
      ∧ (4294967290 : Nat) ≠ 2
      ∧ (y8950_read env0 y09 1).1 = y09.adpcm.readReg 4294967290 := by
  refine ⟨by decide, by decide, by decide, by decide⟩

/-- Claim C9: the two odd port offsets 1 and 3 give different
data-port read results on the same state with the address latch at
0x09, because the ADPCM read path consumes the full port offset; so
the read behaviour does not depend on the low offset bit alone. -/
theorem read_depends_on_high_offset_bits :
    (1 : Nat) % 2 = 3 % 2
      ∧ (y8950_read env0 y09 1).1 ≠ (y8950_read env0 y09 3).1 := by
  refine ⟨by decide, by decide⟩

/-- Claim C8: every data-port write performs the stream flush first
and exactly once; every dispatch call to an engine or latch recorded
in the trace comes after it. -/
theorem write_flushes_first (s : Y8950State) (offset v : Nat) (hodd : offset % 2 = 1) :
    (y8950_write s offset v).2.head? = some Eff.streamUpdate
      ∧ Eff.streamUpdate ∉ (y8950_write s offset v).2.tail := by
  unfold y8950_write
  rw [if_neg (by omega)]
  split_ifs <;> simp

theorem write_flushes_first_witness :
    (y8950_write y0 1 0x30).2.head? = some Eff.streamUpdate
      ∧ Eff.streamUpdate ∉ (y8950_write y0 1 0x30).2.tail :=
  write_flushes_first y0 1 0x30 rfl

/-- Modelled from the spec: put_int_clamp (sound stream helper outside
this snapshot) clamps the converted sample into the signed 16-bit
output range. -/
def put_int_clamp (v : Int) : Int := max (-32768) (min 32767 v)

/-- Modelled from the spec: the smallest 3-bit exponent under which
the value fits a signed 10-bit mantissa. -/
def chooseExp (v : Int) : Nat :=
  ((List.range 8).filter
    (fun e => decide (-(512 * (2 : Int) ^ e) ≤ v ∧ v < 512 * (2 : Int) ^ e))).headD 7

/-- Modelled from the spec: ymfm_roundtrip_fp (declared outside this
snapshot) converts a linear sample to a 10-bit-mantissa 3-bit-exponent
floating representation and back, discarding the low bits that do not
fit the mantissa. -/
def ymfm_roundtrip_fp (v : Int) : Int :=
  (v / (2 : Int) ^ chooseExp v) * (2 : Int) ^ chooseExp v

/-- Embedding of one iteration of y8950_device sound_stream_update,
given the per-tick summed outputs of the two engines (the engine
clock and output contracts live outside this snapshot).  In the
source the FM output is accumulated into the local variable named
sum, but the ADPCM output call is handed a distinct identifier named
sums (with a stereo-shaped argument count of 2), so the ADPCM output
never reaches the accumulator that is quantized and emitted. -/
def sound_stream_update_tick (fmOut adpcmOut : Int) : Int :=
  put_int_clamp (ymfm_roundtrip_fp fmOut)

/-- Statement of claim C3 for one tick: both engine outputs are summed
into the same single mono accumulator before quantization and
clamping. -/
def claimed_tick (fmOut adpcmOut : Int) : Int :=
  put_int_clamp (ymfm_roundtrip_fp (fmOut + adpcmOut))

/-- Claim C3: at FM output 0 and ADPCM output 100 the source emits 0
while the claimed pipeline emits 100, so the ADPCM output is dropped
from the mono accumulator. -/
theorem tick_drops_adpcm_output :
    sound_stream_update_tick 0 100 = 0
      ∧ claimed_tick 0 100 = 100
      ∧ sound_stream_update_tick 0 100 ≠ claimed_tick 0 100 := by
  refine ⟨by decide, by decide, by decide⟩

end Y8950
